import Mathlib

/-!
Shallow embedding of `caldav/objects.py` (the DAV object model of the
caldav client library) together with models of the collaborator modules
that the file imports but that are not part of the embedded source
(`caldav.lib.url`, `caldav.lib.vcal`, `caldav.lib.error`, the `vobject`
iCalendar codec and the HTTP transport).  Pure request/response logic is
embedded as total Lean functions; one HTTP round trip is represented by
passing the server's response in as a value, and python exceptions are
represented with `Except`.
-/

namespace Caldav

/-- String suffix test, modelling python's `str.endswith`. -/
def strEndsWith (s suffix : String) : Bool :=
  suffix.toList.isSuffixOf s.toList

/-- String prefix test, modelling python's `str.startswith`. -/
def strStartsWith (s pre : String) : Bool :=
  pre.toList.isPrefixOf s.toList

mutual

/-- XML element tree, modelling the lxml `etree` elements the code walks:
a tag, the optional text content, and the child elements. -/
inductive Xml where
  | elem (tag : String) (text : Option String) (children : XmlForest)

/-- A sequence of sibling XML elements (the children of an element). -/
inductive XmlForest where
  | nil
  | cons (head : Xml) (tail : XmlForest)

end

/-- Construction helper turning a list of elements into a forest. -/
def xmlForestOf : List Xml → XmlForest
  | [] => .nil
  | x :: xs => .cons x (xmlForestOf xs)

mutual

/-- Proper descendants of an element in document order; this is what the
`.//` axis of lxml's `find`/`findall` ranges over. -/
def Xml.descendants : Xml → List Xml
  | .elem _ _ cs => cs.elems

/-- All elements of a forest in document order, each element followed by
its own descendants. -/
def XmlForest.elems : XmlForest → List Xml
  | .nil => []
  | .cons x xs => x :: (x.descendants ++ xs.elems)

end

/-- Tag of an element (lxml `.tag`). -/
def Xml.tagOf : Xml → String
  | .elem t _ _ => t

/-- Text of an element (lxml `.text`, which may be `None`). -/
def Xml.textOf : Xml → Option String
  | .elem _ x _ => x

/-- Direct children of an element (`list(t)` in python). -/
def Xml.childrenOf : Xml → XmlForest
  | .elem _ _ cs => cs

/-- Emptiness test on a forest, modelling `len(list(t)) > 0` being false. -/
def XmlForest.isNil : XmlForest → Bool
  | .nil => true
  | .cons _ _ => false

/-- Model of lxml `element.findall('.//' ++ tag)`: all descendants with the
given tag, in document order. -/
def Xml.findall (x : Xml) (tag : String) : List Xml :=
  x.descendants.filter (fun e => e.tagOf = tag)

/-- Model of lxml `element.find('.//' ++ tag)`: the first descendant with
the given tag, or `none`. -/
def Xml.findTag (x : Xml) (tag : String) : Option Xml :=
  (x.findall tag).head?

/-- Model of lxml `element.find('.//*')`: the first descendant of any tag. -/
def Xml.firstDescendant (x : Xml) : Option Xml :=
  x.descendants.head?

/-- Python-level outcomes: the typed caldav error classes plus a generic
`Exception` and a constructor for plain python crashes
(`AttributeError`/`TypeError`/`IndexError` on malformed data).  The typed
classes model `caldav.lib.error`, which the source imports. -/
inductive PyErr where
  | notFoundError
  | reportError
  | propsetError
  | putError
  | deleteError
  | mkcalendarError
  | propfindError
  | proppatchError
  | parseError
  | exception
  | crash
deriving DecidableEq, Repr

deriving instance DecidableEq for Except

/-- Namespaced tag of `<D:response>` (`dav.Response.tag`). -/
def responseTag : String := "\x7bDAV:\x7dresponse"

/-- Namespaced tag of `<D:status>` (`dav.Status.tag`). -/
def statusTag : String := "\x7bDAV:\x7dstatus"

/-- Namespaced tag of `<D:href>` (`dav.Href.tag`). -/
def hrefTag : String := "\x7bDAV:\x7dhref"

/-- Namespaced tag of `<D:resourcetype>` (`dav.ResourceType.tag`). -/
def resourcetypeTag : String := "\x7bDAV:\x7dresourcetype"

/-- Namespaced tag of CalDAV `<C:calendar-data>` (`cdav.CalendarData.tag`). -/
def calendarDataTag : String := "\x7burn:ietf:params:xml:ns:caldav\x7dcalendar-data"

/-- Namespaced tag of CalDAV `<C:calendar>` (`cdav.Calendar.tag`). -/
def calendarCompTag : String := "\x7burn:ietf:params:xml:ns:caldav\x7dcalendar"

/-- Assignment into a python dict represented as an association list:
an existing key keeps its position and gets the new value, a new key is
appended (python 3.7+ dict order semantics). -/
def dictSet {K V : Type} [DecidableEq K] (d : List (K × V)) (k : K) (v : V) :
    List (K × V) :=
  if d.any (fun p => p.1 = k) then
    d.map (fun p => if p.1 = k then (k, v) else p)
  else d ++ [(k, v)]

/-- Lookup in a python dict represented as an association list. -/
def dictGet {K V : Type} [DecidableEq K] (d : List (K × V)) (k : K) : Option V :=
  (d.find? (fun p => p.1 = k)).map (fun p => p.2)

/-- Which attribute `_handle_prop_response` extracts from a value element:
its `what` parameter, either `'text'` or `'tag'`. -/
inductive ExtractWhat where
  | text
  | tag
deriving DecidableEq, Repr

/-- Python `getattr(val, what)` on an element. -/
def extractAttr (w : ExtractWhat) (v : Xml) : Option String :=
  match w with
  | .text => v.textOf
  | .tag => some v.tagOf

/-- Inner property map of one multistatus entry: property tag to value. -/
abbrev PropMap := List (String × Option String)

/-- Result mapping of `_handle_prop_response`: href path (which python
allows to be `None`) to property map. -/
abbrev PropDict := List (Option String × PropMap)

/-- Extraction of one requested property from one `<response>` element,
from the body of the `for p in props` loop of `_handle_prop_response`:
if the property element has child elements, take the text/tag of the
nested element matching the optional `type` filter (or the first nested
element), else take the element's immediate text.  A missing property
element makes python crash on `len(list(None))`. -/
def extractProp (type? : Option String) (w : ExtractWhat) (r : Xml)
    (ptag : String) : Except PyErr (Option String) :=
  match r.findTag ptag with
  | none => .error .crash
  | some t =>
    if t.childrenOf.isNil then .ok t.textOf
    else
      match (match type? with
             | some ty => t.findTag ty
             | none => t.firstDescendant) with
      | none => .ok none
      | some v => .ok (extractAttr w v)

/-- The whole `for p in props` loop of `_handle_prop_response`, building
the inner property map. -/
def extractProps (type? : Option String) (w : ExtractWhat) (r : Xml)
    (acc : PropMap) : List String → Except PyErr PropMap
  | [] => .ok acc
  | p :: ps =>
    match extractProp type? w r p with
    | .error e => .error e
    | .ok v => extractProps type? w r (dictSet acc p v) ps

/-- Processing of a single `<response>` element by `_handle_prop_response`:
read the status line; a non-success status is dropped when it ends in
`404 Not Found` and raises `ReportError` otherwise; a success entry
yields its href key and property map. -/
def processEntry (props : List String) (type? : Option String)
    (w : ExtractWhat) (r : Xml) :
    Except PyErr (Option (Option String × PropMap)) :=
  match r.findTag statusTag with
  | none => .error .crash
  | some st =>
    match st.textOf with
    | none => .error .crash
    | some sline =>
      if strEndsWith sline "200 OK" then
        match r.findTag hrefTag with
        | none => .error .crash
        | some h =>
          match extractProps type? w r [] props with
          | .error e => .error e
          | .ok inner => .ok (some (h.textOf, inner))
      else
        if strEndsWith sline "404 Not Found" then .ok none
        else .error .reportError

/-- The entry loop of `_handle_prop_response` over the `<response>`
elements, accumulating the python dict. -/
def handleEntries (props : List String) (type? : Option String)
    (w : ExtractWhat) (acc : PropDict) : List Xml → Except PyErr PropDict
  | [] => .ok acc
  | r :: rest =>
    match processEntry props type? w r with
    | .error e => .error e
    | .ok none => handleEntries props type? w acc rest
    | .ok (some (k, inner)) => handleEntries props type? w (dictSet acc k inner) rest

/-- Embedding of `DAVObject._handle_prop_response`: massage a multistatus
response tree into a dict from href path to property map. -/
def handle_prop_response (tree : Xml) (props : List String)
    (type? : Option String) (w : ExtractWhat) : Except PyErr PropDict :=
  handleEntries props type? w [] (tree.findall responseTag)

/-- Status line of a `<response>` entry, when present. -/
def entryStatusText (r : Xml) : Option String :=
  (r.findTag statusTag).bind Xml.textOf

/-- An entry whose status line ends in `200 OK`. -/
def entryIs200 (r : Xml) : Bool :=
  ((entryStatusText r).map (fun s => strEndsWith s "200 OK")).getD false

/-- An entry whose status line is a non-success ending in `404 Not Found`. -/
def entryIs404 (r : Xml) : Bool :=
  ((entryStatusText r).map
    (fun s => !strEndsWith s "200 OK" && strEndsWith s "404 Not Found")).getD false

/-- An entry whose status line is neither a `200 OK` success nor a
`404 Not Found`. -/
def entryBad (r : Xml) : Bool :=
  ((entryStatusText r).map
    (fun s => !strEndsWith s "200 OK" && !strEndsWith s "404 Not Found")).getD false

/-- The href key a `200 OK` entry is stored under. -/
def entryHrefKey (r : Xml) : Option (Option String) :=
  (r.findTag hrefTag).map Xml.textOf

/-- Absence of a python-level crash when `_handle_prop_response` processes
one entry: the element is well-formed enough for the code to reach a
typed outcome. -/
def entryNoCrash (props : List String) (type? : Option String)
    (w : ExtractWhat) (r : Xml) : Bool :=
  match processEntry props type? w r with
  | .error .crash => false
  | _ => true


/-- Embedding of `DAVObject.get_properties`: run the PROPFIND response
through `_handle_prop_response`, then pick the entry whose path is the
resource's own URL path, or that path with a trailing slash appended
(`exchange_path`); if neither is present, raise the generic
`Exception("The CalDAV server you are using has a problem with path
handling.")`. -/
def get_properties (tree : Xml) (props : List String) (selfPath : String) :
    Except PyErr PropMap :=
  match handle_prop_response tree props none .text with
  | .error e => .error e
  | .ok m =>
    match dictGet m (some selfPath) with
    | some rc => .ok rc
    | none =>
      match dictGet m (some (selfPath ++ "/")) with
      | some rc => .ok rc
      | none => .error .exception

/-- Modelled from the spec: the URL abstraction of `caldav.lib.url` (a
collaborator module that is not part of the embedded source).  A URL is
reduced to the two pieces the embedded code observes: an optional hostname
and a path string. -/
structure MUrl where
  host : Option String
  path : String
deriving DecidableEq, Repr

/-- Modelled from the spec: `URL.objectify` on a string; an absolute
`http(s)://` reference carries a hostname, anything else is a relative
reference consisting only of a path. -/
def MUrl.ofString (s : String) : MUrl :=
  if strStartsWith s "http://" then
    MUrl.mk (some ((s.toList.drop 7).takeWhile (fun c => c ≠ '/')).asString)
      ((s.toList.drop 7).dropWhile (fun c => c ≠ '/')).asString
  else if strStartsWith s "https://" then
    MUrl.mk (some ((s.toList.drop 8).takeWhile (fun c => c ≠ '/')).asString)
      ((s.toList.drop 8).dropWhile (fun c => c ≠ '/')).asString
  else MUrl.mk none s

/-- Modelled from the spec: everything up to and including the last slash of
a path — the base directory used by standard URL-reference resolution. -/
def dirOf (p : String) : String :=
  ((p.toList.reverse.dropWhile (fun c => c ≠ '/')).reverse).asString

/-- Modelled from the spec: `URL.join`, standard URL-reference resolution of
a (possibly absolute) reference against a base URL. -/
def MUrl.join (base rel : MUrl) : MUrl :=
  if rel.host.isSome then rel
  else if rel.path = "" then base
  else if strStartsWith rel.path "/" then MUrl.mk base.host rel.path
  else MUrl.mk base.host (dirOf base.path ++ rel.path)

/-- Modelled from the spec: join of a base URL with a python value that may
be `None` (`URL.objectify(None)` is `None`, and joining an absent or empty
reference leaves the base unchanged). -/
def MUrl.joinStr (base : MUrl) (s : Option String) : MUrl :=
  match s with
  | none => base
  | some str => base.join (MUrl.ofString str)

/-- Modelled from the spec: `URL.strip_trailing_slash`, idempotent removal
of trailing path separators. -/
def MUrl.stripTrailingSlash (u : MUrl) : MUrl :=
  MUrl.mk u.host ((u.path.toList.reverse.dropWhile (fun c => c = '/')).reverse).asString

/-- Type filter of `children`: `resource_type == type or type is None`. -/
def typeMatches (type? : Option String) (rtype : Option String) : Bool :=
  match type? with
  | none => true
  | some ty => decide (rtype = some ty)

/-- The filter loop of `DAVObject.children` over the parsed property dict:
keep entries whose resource type matches the requested type and whose
slash-normalized URL differs from the resource's own slash-normalized URL. -/
def childrenFilter (selfUrl : MUrl) (type? : Option String) :
    PropDict → Except PyErr (List (MUrl × Option String))
  | [] => .ok []
  | (k, inner) :: rest =>
    match dictGet inner resourcetypeTag with
    | none => .error .crash
    | some rtype =>
      match childrenFilter selfUrl type? rest with
      | .error e => .error e
      | .ok l =>
        .ok (if typeMatches type? rtype &&
               decide (selfUrl.stripTrailingSlash ≠
                 (selfUrl.joinStr k).stripTrailingSlash)
             then (selfUrl.joinStr k, rtype) :: l else l)

/-- Embedding of `DAVObject.children`: a depth-1 PROPFIND for resourcetype
handled with `what='tag'` and the requested type as filter, followed by the
filter loop over the resulting dict. -/
def children (selfUrl : MUrl) (type? : Option String) (tree : Xml) :
    Except PyErr (List (MUrl × Option String)) :=
  match handle_prop_response tree [resourcetypeTag] type? .tag with
  | .error e => .error e
  | .ok m => childrenFilter selfUrl type? m

/-- Mutable session state that the embedded code observes on the shared
`DAVClient`: its base URL (`self.client.url`). -/
structure ClientState where
  url : MUrl
deriving DecidableEq, Repr

/-- Result of constructing a `CalendarSet(client, url)`: the set's URL. -/
structure CalendarSetM where
  url : MUrl
deriving DecidableEq, Repr

/-- Cached state of a `Principal`: its `_calendar_home_set` field. -/
structure PrincipalState where
  chs : Option CalendarSetM
deriving DecidableEq, Repr

/-- Python truthiness of an optional hostname, as tested by
`sanitized_url.hostname and ...`. -/
def hostTruthy : Option String → Bool
  | none => false
  | some s => decide (s ≠ "")

/-- Embedding of the `Principal.calendar_home_set` setter applied to an href
string: objectify the url; when it carries a truthy hostname differing from
the session's current hostname, the session base URL is replaced by the
sanitized url (the icloud load-balancing accommodation); the CalendarSet is
then built from the session url joined with the sanitized url. -/
def chs_set (cl : ClientState) (href : String) : ClientState × CalendarSetM :=
  let sanitized := MUrl.ofString href
  let cl' : ClientState :=
    if hostTruthy sanitized.host && decide (sanitized.host ≠ cl.url.host)
    then ClientState.mk sanitized else cl
  (cl', CalendarSetM.mk (cl'.url.join sanitized))

/-- Outcome of one access to the `calendar_home_set` property: the new
principal and session state, the returned CalendarSet, and how many
property queries were issued during the access. -/
structure CHSOut where
  principal : PrincipalState
  client : ClientState
  result : CalendarSetM
  queries : Nat
deriving DecidableEq, Repr

/-- Embedding of the `Principal.calendar_home_set` property getter: when the
cache is empty, one PROPFIND is issued (the href value it returns is the
`fetched` argument) and the setter runs; a cached value is returned with no
query and no state change. -/
def calendar_home_set (p : PrincipalState) (cl : ClientState)
    (fetched : String) : CHSOut :=
  match p.chs with
  | some cs => CHSOut.mk p cl cs 0
  | none =>
    let r := chs_set cl fetched
    CHSOut.mk (PrincipalState.mk (some r.2)) r.1 r.2 1

/-- Structured iCalendar object as far as the embedded code observes it
(the `vobject` component tree): for each of the four supported components,
whether it is present and, if so, its optional UID value (`some none` is a
component without a uid, on which `.uid` raises); `body` is an opaque
carrier for the rest of the content. -/
structure VInstance where
  vevent : Option (Option String)
  vtodo : Option (Option String)
  vjournal : Option (Option String)
  vfreebusy : Option (Option String)
  body : String
deriving DecidableEq, Repr

/-- Modelled from the spec: the external iCalendar codec (`vobject.readOne`
and `.serialize`) and the text normalizer `caldav.lib.vcal.fix`, which are
collaborators outside the embedded source, together with the notion of
textual equivalence the spec's round-trip property speaks about. -/
structure ICalCodec where
  fix : String → String
  readOne : String → Option VInstance
  serialize : VInstance → String
  equivText : String → String → Prop

/-- A concrete codec for instantiating codec-parameterized theorems:
parsing wraps the whole text as the opaque body of an instance with no
components, serialization returns the body, normalization is the identity
and equivalence is equality. -/
def idCodec : ICalCodec :=
  ICalCodec.mk (fun s => s)
    (fun s => some (VInstance.mk none none none none s))
    (fun i => i.body) Eq

/-- State of a `CalendarObjectResource`: url, id, and the paired textual
(`_data`) and structured (`_instance`) representations. -/
structure CORState where
  url : Option MUrl
  id : Option String
  dat : Option String
  inst : Option VInstance
deriving DecidableEq, Repr

/-- Embedding of `CalendarObjectResource.set_data`: `_data` is assigned the
normalized text first, then the text is eagerly parsed into `_instance`; a
parse failure escapes after `_data` was already assigned. -/
def set_data (c : ICalCodec) (st : CORState) (d : String) :
    CORState × Option PyErr :=
  match c.readOne (c.fix d) with
  | none => (CORState.mk st.url st.id (some (c.fix d)) st.inst, some .parseError)
  | some i => (CORState.mk st.url st.id (some (c.fix d)) (some i), none)

/-- Embedding of `CalendarObjectResource.set_instance`: store the structured
instance and immediately re-serialize it into `_data`. -/
def set_instance (c : ICalCodec) (st : CORState) (i : VInstance) : CORState :=
  CORState.mk st.url st.id (some (c.serialize i)) (some i)

/-- One candidate of the greedy `[^/]*` group of the id-derivation regex at
a fixed start: the group of length `L` matches when a character (the `.`,
which matches anything) and the literal `ics` follow it. -/
def icsMatchesAt (cs : List Char) (L : Nat) : Bool :=
  decide (cs.drop L ≠ []) && decide ((cs.drop (L + 1)).take 3 = ['i', 'c', 's'])

/-- Greedy backtracking over the group length, longest first. -/
def icsTry (cs : List Char) : Nat → Option (List Char)
  | 0 => if icsMatchesAt cs 0 then some [] else none
  | L + 1 =>
    if icsMatchesAt cs (L + 1) then some (cs.take (L + 1)) else icsTry cs L

/-- Greedy match of `([^/]*).ics` with the group starting at the head of
`cs`; the `[^/]*` group cannot cross a slash. -/
def icsAt (cs : List Char) : Option (List Char) :=
  icsTry cs (cs.takeWhile (fun c => c ≠ '/')).length

/-- Embedding of `re.search('(/|^)([^/]*).ics', path).group(2)`: start
positions are tried left to right; at each position the `/` alternative is
preferred and the `^` alternative applies only at the very start; the first
position admitting a match wins. -/
def reSearchG2 : List Char → Bool → Option (List Char)
  | [], first => if first then icsAt [] else none
  | c :: rest, first =>
    match (if c = '/' then icsAt rest else none) with
    | some g => some g
    | none =>
      match (if first then icsAt (c :: rest) else none) with
      | some g => some g
      | none => reSearchG2 rest false

/-- The final path segment's stem of a path ending in `.ics` — the reading
"the id is derived from the final path segment" of the claim. -/
def finalSegmentIcsStem (p : String) : Option String :=
  if strEndsWith p ".ics" then
    some ((((p.toList.reverse.takeWhile (fun c => c ≠ '/')).reverse).dropLast.dropLast.dropLast.dropLast).asString)
  else none

/-- The `for obj in ('vevent', 'vtodo', 'vjournal', 'vfreebusy')` loop of
`CalendarObjectResource._create`: the uid of the first component the
instance carries; a present component without a uid makes python raise; no
component at all leaves the id `None`. -/
def uidFromInstance (inst : VInstance) : Except PyErr (Option String) :=
  match inst.vevent with
  | some (some u) => .ok (some u)
  | some none => .error .crash
  | none =>
    match inst.vtodo with
    | some (some u) => .ok (some u)
    | some none => .error .crash
    | none =>
      match inst.vjournal with
      | some (some u) => .ok (some u)
      | some none => .error .crash
      | none =>
        match inst.vfreebusy with
        | some (some u) => .ok (some u)
        | some none => .error .crash
        | none => .ok none

/-- Id derivation of `CalendarObjectResource._create`: with no id and an
explicit path ending in `.ics`, group 2 of the first regex match; with no
id otherwise, the uid of the first supported component. -/
def deriveId (inst : VInstance) (id? : Option String) (path? : Option String) :
    Except PyErr (Option String) :=
  match id? with
  | some i => .ok (some i)
  | none =>
    match path? with
    | some p =>
      if strEndsWith p ".ics" then
        match reSearchG2 p.toList true with
        | some g => .ok (some g.asString)
        | none => .error .crash
      else uidFromInstance inst
    | none => uidFromInstance inst

/-- Path derivation of `_create`: an explicit path is used as given, else
`id + ".ics"`; building the default path from a `None` id is a python
`TypeError`. -/
def derivePath (id? : Option String) (path? : Option String) :
    Except PyErr String :=
  match path? with
  | some p => .ok p
  | none =>
    match id? with
    | some i => .ok (i ++ ".ics")
    | none => .error .crash

/-- HTTP verbs the embedded code dispatches to the transport. -/
inductive Verb where
  | propfind
  | proppatch
  | mkcalendar
  | report
  | put
  | get
  | delete
deriving DecidableEq, Repr

/-- One request issued to the transport: verb, target URL, body (when the
body matters to a claim) and content-type header (when one is set). -/
structure Req where
  verb : Verb
  url : MUrl
  body : Option String
  contentType : Option String
deriving DecidableEq, Repr

/-- One HTTP response delivered by the transport collaborator: status code,
response headers, and the parsed XML tree. -/
structure DavResponse where
  status : Nat
  headers : List (String × String)
  tree : Xml

/-- The `[x[1] for x in r.headers if x[0]=='location'][0]` lookup of
`_create`; an absent location header is a python IndexError. -/
def locationOf (headers : List (String × String)) : Option String :=
  ((headers.filter (fun x => x.1 = "location")).map (fun x => x.2)).head?

/-- Embedding of `CalendarObjectResource._create`: derive the id and the
target path, PUT the data at the parent-joined path with the calendar
content type, then interpret the status — 302 takes the location header as
the new URL, 201/204 keep the computed path, anything else raises
`PutError`. -/
def cor_create (parentUrl : MUrl) (inst : VInstance) (dat : String)
    (id? : Option String) (path? : Option String) (resp : DavResponse) :
    Except PyErr (MUrl × Option String) × List Req :=
  match deriveId inst id? path? with
  | .error e => (.error e, [])
  | .ok newId =>
    match derivePath newId path? with
    | .error e => (.error e, [])
    | .ok pstr =>
      let target := parentUrl.join (MUrl.ofString pstr)
      let tr := [Req.mk .put target (some dat)
        (some "text/calendar; charset=\"utf-8\"")]
      if resp.status = 302 then
        match locationOf resp.headers with
        | none => (.error .crash, tr)
        | some loc => (.ok (MUrl.ofString loc, newId), tr)
      else if resp.status = 204 ∨ resp.status = 201 then
        (.ok (target, newId), tr)
      else (.error .putError, tr)

/-- Embedding of `CalendarObjectResource.save`: nothing happens unless a
structured instance is pending; otherwise `_create` runs on its
serialization, the current id, and the current URL's path if any. -/
def cor_save (c : ICalCodec) (parentUrl : MUrl) (st : CORState)
    (resp : DavResponse) : Except PyErr CORState × List Req :=
  match st.inst with
  | none => (.ok st, [])
  | some i =>
    match cor_create parentUrl i (c.serialize i) st.id
        (st.url.map MUrl.path) resp with
    | (.ok (u, newId), tr) =>
      (.ok (CORState.mk (some u) newId st.dat st.inst), tr)
    | (.error e, tr) => (.error e, tr)

/-- Modelled from the spec: `caldav.lib.error.exception_by_method`, the
verb-specific error class `_query` raises for a failed request. -/
def exceptionByMethod : Verb → PyErr
  | .propfind => .propfindError
  | .proppatch => .proppatchError
  | .mkcalendar => .mkcalendarError
  | .report => .reportError
  | .put => .putError
  | .delete => .deleteError
  | .get => .exception

/-- Embedding of the response handling of `DAVObject._query`: a 404 is a
`NotFoundError`; an unexpected status (when one was expected) or any status
at or above 400 raises the verb-specific error; any other response passes
through. -/
def queryCheck (resp : DavResponse) (m : Verb) (expected : Option Nat) :
    Except PyErr DavResponse :=
  if resp.status = 404 then .error .notFoundError
  else if ((expected.map (fun e2 => decide (resp.status ≠ e2))).getD false ||
           decide (400 ≤ resp.status)) then .error (exceptionByMethod m)
  else .ok resp

/-- The inner status check of `DAVObject.set_properties`: every status line
of the PROPPATCH multistatus must end in `200 OK`, otherwise
`PropsetError`; a status element without text is a python crash. -/
def checkPropsetStatuses : List Xml → Except PyErr Unit
  | [] => .ok ()
  | s :: rest =>
    match s.textOf with
    | none => .error .crash
    | some t =>
      if strEndsWith t "200 OK" then checkPropsetStatuses rest
      else .error .propsetError

/-- Embedding of `DAVObject.set_properties`: a PROPPATCH through `_query`,
then the all-200 check over every status line of the response tree. -/
def set_properties_outcome (resp : DavResponse) : Except PyErr Unit :=
  match queryCheck resp .proppatch none with
  | .error e => .error e
  | .ok r => checkPropsetStatuses (r.tree.findall statusTag)

/-- The four server responses one run of `Calendar._create` can consume:
the MKCALENDAR answer, the display-name PROPPATCH answer, the rollback
DELETE answer and the answer to the Zimbra name-probe request. -/
structure CalCreateEnv where
  mkcal : DavResponse
  proppatch : DavResponse
  deleteResp : DavResponse
  zimbra : DavResponse

/-- State of a `Calendar` object as far as `save` observes it. -/
structure CalState where
  url : Option MUrl
  name : Option String
  id : Option String
deriving DecidableEq, Repr

/-- The Zimbra fallback probe ending `Calendar._create`: request the
name-based URL; a 404 ("sane server") keeps the current id-based URL,
any other status adopts the name-based URL. -/
def calZimbraProbe (parentUrl : MUrl) (name : Option String) (cur : MUrl)
    (env : CalCreateEnv) (tr : List Req) : Except PyErr MUrl × List Req :=
  let zurl := parentUrl.joinStr name
  let tr' := tr ++ [Req.mk .get zurl none none]
  if env.zimbra.status = 404 then (.ok cur, tr') else (.ok zurl, tr')

/-- Embedding of `Calendar._create` (with the id already resolved, python
drawing a fresh uuid when none was given): MKCALENDAR at the id-based child
path expecting 201; with a display name, a follow-up PROPPATCH whose
failure triggers a DELETE of the just-created collection before the
original error is re-raised (a failing DELETE raises DeleteError instead);
finally the Zimbra name-probe. -/
def cal_create (parentUrl : MUrl) (name : Option String) (id : String)
    (env : CalCreateEnv) : Except PyErr MUrl × List Req :=
  let path := parentUrl.join (MUrl.ofString id)
  let tr0 := [Req.mk .mkcalendar path none none]
  match queryCheck env.mkcal .mkcalendar (some 201) with
  | .error e => (.error e, tr0)
  | .ok _ =>
    match name with
    | none => calZimbraProbe parentUrl none path env tr0
    | some nm =>
      let tr1 := tr0 ++ [Req.mk .proppatch path none none]
      match set_properties_outcome env.proppatch with
      | .ok _ => calZimbraProbe parentUrl (some nm) path env tr1
      | .error e =>
        let tr2 := tr1 ++ [Req.mk .delete path none none]
        if env.deleteResp.status = 200 ∨ env.deleteResp.status = 204 ∨
           env.deleteResp.status = 404 then (.error e, tr2)
        else (.error .deleteError, tr2)

/-- The trailing-slash fixup `Calendar.save` applies after creation. -/
def ensureTrailingSlash (u : MUrl) : MUrl :=
  if strEndsWith u.path "/" then u else MUrl.mk u.host (u.path ++ "/")

/-- Embedding of `Calendar.save`: only creates; a calendar that already has
a URL is returned unchanged; after a successful creation the URL gets a
trailing slash appended when it lacks one. -/
def cal_save (parentUrl : MUrl) (st : CalState) (genId : String)
    (env : CalCreateEnv) : Except PyErr CalState × List Req :=
  match st.url with
  | some _ => (.ok st, [])
  | none =>
    match cal_create parentUrl st.name (st.id.getD genId) env with
    | (.ok u, tr) =>
      (.ok (CalState.mk (some (ensureTrailingSlash u)) st.name
        (some (st.id.getD genId))), tr)
    | (.error e, tr) => (.error e, tr)

/-- Embedding of the `Event(client, url=..., data=...)` constructor as
`event_by_uid` invokes it: the url is resolved against the client base
(python's falsy test keeps an empty href un-joined), then `set_data` runs
when data was given; a parse failure propagates. -/
def eventCtor (c : ICalCodec) (clientUrl : MUrl) (href? : Option String)
    (dat? : Option String) : Except PyErr CORState :=
  let url? : Option MUrl :=
    match href? with
    | none => none
    | some sa =>
      if sa = "" then some (MUrl.ofString sa)
      else some (clientUrl.join (MUrl.ofString sa))
  match dat? with
  | none => .ok (CORState.mk url? none none none)
  | some d =>
    match set_data c (CORState.mk url? none none none) d with
    | (st, none) => .ok st
    | (_, some e) => .error e

/-- Embedding of `Calendar.event_by_uid` once the REPORT response is in
hand: `_query` maps 404 to NotFoundError and failure statuses to
ReportError, the re-checks for 404/400 follow, then the first `<response>`
entry is taken — no entry at all is a NotFoundError — and an Event is
constructed from its href and calendar-data texts. -/
def event_by_uid (c : ICalCodec) (clientUrl : MUrl) (resp : DavResponse) :
    Except PyErr CORState :=
  match queryCheck resp .report none with
  | .error e => .error e
  | .ok r =>
    if r.status = 404 then .error .notFoundError
    else if r.status = 400 then .error .reportError
    else
      match r.tree.findTag responseTag with
      | none => .error .notFoundError
      | some rr =>
        match rr.findTag hrefTag with
        | none => .error .crash
        | some h =>
          match rr.findTag calendarDataTag with
          | none => .error .crash
          | some dEl => eventCtor c clientUrl h.textOf dEl.textOf

theorem extractProp_error_crash (type? : Option String) (w : ExtractWhat)
    (r : Xml) (p : String) (e : PyErr)
    (h : extractProp type? w r p = .error e) : e = .crash := by
  unfold extractProp at h
  split at h
  · exact (Except.error.inj h).symm
  · split at h
    · simp at h
    · split at h <;> simp at h

theorem extractProps_error_crash (type? : Option String) (w : ExtractWhat)
    (r : Xml) : ∀ (ps : List String) (acc : PropMap) (e : PyErr),
    extractProps type? w r acc ps = .error e → e = .crash := by
  intro ps
  induction ps with
  | nil => intro acc e h; simp [extractProps] at h
  | cons p ps ih =>
    intro acc e h
    unfold extractProps at h
    cases hp : extractProp type? w r p with
    | error e' =>
      simp only [hp] at h
      have he : e' = e := Except.error.inj h
      exact he ▸ extractProp_error_crash type? w r p e' hp
    | ok v =>
      simp only [hp] at h
      exact ih (dictSet acc p v) e h

theorem dictSet_mem_key {K V : Type} [DecidableEq K] (d : List (K × V))
    (k k' : K) (v : V) :
    (∃ u, (k', u) ∈ dictSet d k v) ↔ (k' = k ∨ ∃ u, (k', u) ∈ d) := by
  unfold dictSet
  by_cases hany : d.any (fun p => p.1 = k) = true
  · simp only [hany, if_true]
    constructor
    · rintro ⟨u, hu⟩
      rcases List.mem_map.mp hu with ⟨⟨pk, pv⟩, hp, hfp⟩
      by_cases hpk : pk = k
      · simp only [hpk, if_pos] at hfp
        obtain ⟨h1, _⟩ := Prod.mk.inj hfp
        exact Or.inl h1.symm
      · rw [if_neg (by simpa using hpk)] at hfp
        obtain ⟨h1, h2⟩ := Prod.mk.inj hfp
        subst h1; subst h2
        exact Or.inr ⟨pv, hp⟩
    · rintro (rfl | ⟨u, hu⟩)
      · rcases List.any_eq_true.mp hany with ⟨p, hp, hpk⟩
        simp only [decide_eq_true_eq] at hpk
        exact ⟨v, List.mem_map.mpr ⟨p, hp, by simp [hpk]⟩⟩
      · by_cases hpk : k' = k
        · rcases List.any_eq_true.mp hany with ⟨p, hp, hpk'⟩
          simp only [decide_eq_true_eq] at hpk'
          exact ⟨v, List.mem_map.mpr ⟨p, hp, by simp [hpk', hpk]⟩⟩
        · exact ⟨u, List.mem_map.mpr ⟨(k', u), hu, by simp [hpk]⟩⟩
  · simp only [hany, if_false]
    constructor
    · rintro ⟨u, hu⟩
      rcases List.mem_append.mp hu with h | h
      · exact Or.inr ⟨u, h⟩
      · simp only [List.mem_singleton] at h
        exact Or.inl (Prod.mk.inj h).1
    · rintro (rfl | ⟨u, hu⟩)
      · exact ⟨v, List.mem_append.mpr (Or.inr (by simp))⟩
      · exact ⟨u, List.mem_append.mpr (Or.inl hu)⟩

theorem processEntry_classify (props : List String) (type? : Option String)
    (w : ExtractWhat) (r : Xml) (h : entryNoCrash props type? w r = true) :
    (entryIs200 r = true ∧ entryBad r = false ∧
      ∃ k inner, processEntry props type? w r = .ok (some (k, inner)) ∧
        entryHrefKey r = some k)
    ∨ (entryIs200 r = false ∧ entryIs404 r = true ∧ entryBad r = false ∧
        processEntry props type? w r = .ok none)
    ∨ (entryBad r = true ∧ processEntry props type? w r = .error .reportError) := by
  cases hs : r.findTag statusTag with
  | none => simp [entryNoCrash, processEntry, hs] at h
  | some st =>
    cases ht : st.textOf with
    | none => simp [entryNoCrash, processEntry, hs, ht] at h
    | some sline =>
      cases h200 : strEndsWith sline "200 OK" with
      | true =>
        cases hh : r.findTag hrefTag with
        | none => simp [entryNoCrash, processEntry, hs, ht, h200, hh] at h
        | some he =>
          cases hex : extractProps type? w r [] props with
          | error e =>
            have hcr : e = PyErr.crash := extractProps_error_crash type? w r props [] e hex
            subst hcr
            simp [entryNoCrash, processEntry, hs, ht, h200, hh, hex] at h
          | ok inner =>
            left
            refine ⟨?_, ?_, he.textOf, inner, ?_, ?_⟩
            · simp [entryIs200, entryStatusText, hs, ht, h200]
            · simp [entryBad, entryStatusText, hs, ht, h200]
            · simp [processEntry, hs, ht, h200, hh, hex]
            · simp [entryHrefKey, hh]
      | false =>
        cases h404 : strEndsWith sline "404 Not Found" with
        | true =>
          right; left
          refine ⟨?_, ?_, ?_, ?_⟩ <;>
            simp [entryIs200, entryIs404, entryBad, entryStatusText,
              processEntry, hs, ht, h200, h404]
        | false =>
          right; right
          constructor <;>
            simp [entryBad, entryStatusText, processEntry, hs, ht, h200, h404]

theorem handleEntries_spec (props : List String) (type? : Option String)
    (w : ExtractWhat) :
    ∀ (l : List Xml) (acc : PropDict),
    (∀ r ∈ l, entryNoCrash props type? w r = true) →
    ((l.any entryBad = true →
        handleEntries props type? w acc l = .error .reportError)
     ∧ (l.any entryBad = false →
        ∃ m, handleEntries props type? w acc l = .ok m ∧
          ∀ k, (∃ v, (k, v) ∈ m) ↔
            ((∃ v, (k, v) ∈ acc) ∨
             ∃ r ∈ l, entryIs200 r = true ∧ entryHrefKey r = some k))) := by
  intro l
  induction l with
  | nil =>
    intro acc _
    refine ⟨fun hbad => by simp at hbad, fun _ => ⟨acc, rfl, fun k => ?_⟩⟩
    simp
  | cons r rest ih =>
    intro acc hwf
    have hr := processEntry_classify props type? w r (hwf r (by simp))
    have hrest : ∀ r' ∈ rest, entryNoCrash props type? w r' = true :=
      fun r' h' => hwf r' (by simp [h'])
    rcases hr with ⟨h200, hbadf, k0, inner0, hpe, hkey⟩ | ⟨h200f, _, hbadf, hpe⟩ |
      ⟨hbadt, hpe⟩
    · have step : handleEntries props type? w acc (r :: rest) =
          handleEntries props type? w (dictSet acc k0 inner0) rest := by
        simp only [handleEntries, hpe]
      constructor
      · intro hbad
        rw [step]
        have : rest.any entryBad = true := by
          simp only [List.any_cons, hbadf, Bool.false_or] at hbad
          exact hbad
        exact (ih (dictSet acc k0 inner0) hrest).1 this
      · intro hbad
        have hrb : rest.any entryBad = false := by
          simp only [List.any_cons, hbadf, Bool.false_or] at hbad
          exact hbad
        obtain ⟨m, hm, hiff⟩ := (ih (dictSet acc k0 inner0) hrest).2 hrb
        refine ⟨m, step ▸ hm, fun k => ?_⟩
        rw [hiff k, dictSet_mem_key]
        constructor
        · rintro ((rfl | hacc) | ⟨r', hr', h2⟩)
          · exact Or.inr ⟨r, by simp, h200, hkey⟩
          · exact Or.inl hacc
          · exact Or.inr ⟨r', by simp [hr'], h2⟩
        · rintro (hacc | ⟨r', hr', h2, h3⟩)
          · exact Or.inl (Or.inr hacc)
          · rcases List.mem_cons.mp hr' with rfl | hr'
            · left; left
              rw [hkey] at h3
              exact (Option.some.inj h3).symm
            · exact Or.inr ⟨r', hr', h2, h3⟩
    · have step : handleEntries props type? w acc (r :: rest) =
          handleEntries props type? w acc rest := by
        simp only [handleEntries, hpe]
      constructor
      · intro hbad
        rw [step]
        have : rest.any entryBad = true := by
          simp only [List.any_cons, hbadf, Bool.false_or] at hbad
          exact hbad
        exact (ih acc hrest).1 this
      · intro hbad
        have hrb : rest.any entryBad = false := by
          simp only [List.any_cons, hbadf, Bool.false_or] at hbad
          exact hbad
        obtain ⟨m, hm, hiff⟩ := (ih acc hrest).2 hrb
        refine ⟨m, step ▸ hm, fun k => ?_⟩
        rw [hiff k]
        constructor
        · rintro (hacc | ⟨r', hr', h2⟩)
          · exact Or.inl hacc
          · exact Or.inr ⟨r', by simp [hr'], h2⟩
        · rintro (hacc | ⟨r', hr', h2, h3⟩)
          · exact Or.inl hacc
          · rcases List.mem_cons.mp hr' with rfl | hr'
            · rw [h200f] at h2; cases h2
            · exact Or.inr ⟨r', hr', h2, h3⟩
    · constructor
      · intro _
        simp only [handleEntries, hpe]
      · intro hbad
        simp [hbadt] at hbad

/-- C1: for every multistatus response processed by `_handle_prop_response`
(with entries well-formed enough that python does not crash on them), if any
`<response>` entry has a status line that neither ends in `200 OK` nor in
`404 Not Found` the whole call raises `ReportError`; otherwise the call
returns a result mapping whose keys are exactly the href paths of the
`200 OK` entries — in particular every `404 Not Found` entry is silently
excluded. -/
theorem handle_prop_response_classifies (tree : Xml) (props : List String)
    (type? : Option String) (w : ExtractWhat)
    (hwf : ∀ r ∈ tree.findall responseTag, entryNoCrash props type? w r = true) :
    ((tree.findall responseTag).any entryBad = true →
       handle_prop_response tree props type? w = .error .reportError)
    ∧ ((tree.findall responseTag).any entryBad = false →
       ∃ m, handle_prop_response tree props type? w = .ok m ∧
         ∀ k, (∃ v, (k, v) ∈ m) ↔
           ∃ r ∈ tree.findall responseTag, entryIs200 r = true ∧
             entryHrefKey r = some k) := by
  have h := handleEntries_spec props type? w (tree.findall responseTag) [] hwf
  constructor
  · intro hb
    simpa [handle_prop_response] using h.1 hb
  · intro hb
    obtain ⟨m, hm, hiff⟩ := h.2 hb
    refine ⟨m, by simpa [handle_prop_response] using hm, fun k => ?_⟩
    rw [hiff k]
    simp

/-- Witness for C1 at a concrete multistatus holding one `200 OK` entry and
one `404 Not Found` entry. -/
theorem handle_prop_response_classifies_witness :
    ∃ m, handle_prop_response
        (Xml.elem "multistatus" none (xmlForestOf
          [Xml.elem responseTag none (xmlForestOf
             [Xml.elem statusTag (some "HTTP/1.1 200 OK") .nil,
              Xml.elem hrefTag (some "/cal/x.ics") .nil]),
           Xml.elem responseTag none (xmlForestOf
             [Xml.elem statusTag (some "HTTP/1.1 404 Not Found") .nil,
              Xml.elem hrefTag (some "/cal/y.ics") .nil])]))
        [] none .text = .ok m ∧
      ∀ k, (∃ v, (k, v) ∈ m) ↔
        ∃ r ∈ (Xml.elem "multistatus" none (xmlForestOf
          [Xml.elem responseTag none (xmlForestOf
             [Xml.elem statusTag (some "HTTP/1.1 200 OK") .nil,
              Xml.elem hrefTag (some "/cal/x.ics") .nil]),
           Xml.elem responseTag none (xmlForestOf
             [Xml.elem statusTag (some "HTTP/1.1 404 Not Found") .nil,
              Xml.elem hrefTag (some "/cal/y.ics") .nil])])).findall responseTag,
          entryIs200 r = true ∧ entryHrefKey r = some k :=
  (handle_prop_response_classifies
    (Xml.elem "multistatus" none (xmlForestOf
      [Xml.elem responseTag none (xmlForestOf
         [Xml.elem statusTag (some "HTTP/1.1 200 OK") .nil,
          Xml.elem hrefTag (some "/cal/x.ics") .nil]),
       Xml.elem responseTag none (xmlForestOf
         [Xml.elem statusTag (some "HTTP/1.1 404 Not Found") .nil,
          Xml.elem hrefTag (some "/cal/y.ics") .nil])]))
    [] none .text (by decide)).2 (by decide)

/-- C9: for every call to `get_properties`, the result is the multistatus
entry whose path equals the resource's exact URL path, or — only when the
exact path is absent — that path with a trailing slash appended; when
neither form is present the call fails with the generic (untyped, fatal)
`Exception`, distinct from every typed caldav error. -/
theorem get_properties_path_match (tree : Xml) (props : List String)
    (selfPath : String) (m : PropDict)
    (h : handle_prop_response tree props none .text = .ok m) :
    (∀ rc, dictGet m (some selfPath) = some rc →
       get_properties tree props selfPath = .ok rc)
    ∧ (∀ rc, dictGet m (some selfPath) = none →
         dictGet m (some (selfPath ++ "/")) = some rc →
         get_properties tree props selfPath = .ok rc)
    ∧ (dictGet m (some selfPath) = none →
       dictGet m (some (selfPath ++ "/")) = none →
       get_properties tree props selfPath = .error .exception ∧
       PyErr.exception ∉ [PyErr.notFoundError, PyErr.reportError,
         PyErr.propsetError, PyErr.putError, PyErr.deleteError,
         PyErr.mkcalendarError, PyErr.propfindError, PyErr.proppatchError]) := by
  refine ⟨?_, ?_, ?_⟩
  · intro rc h1
    simp [get_properties, h, h1]
  · intro rc h1 h2
    simp [get_properties, h, h1, h2]
  · intro h1 h2
    refine ⟨by simp [get_properties, h, h1, h2], by decide⟩

/-- Witness for C9 at a concrete response whose single entry carries the
slash-normalized form of the resource path. -/
theorem get_properties_path_match_witness :
    get_properties
      (Xml.elem "multistatus" none (xmlForestOf
        [Xml.elem responseTag none (xmlForestOf
           [Xml.elem statusTag (some "HTTP/1.1 200 OK") .nil,
            Xml.elem hrefTag (some "/principals/u/") .nil])]))
      [] "/principals/u" = .ok [] :=
  (get_properties_path_match
    (Xml.elem "multistatus" none (xmlForestOf
      [Xml.elem responseTag none (xmlForestOf
         [Xml.elem statusTag (some "HTTP/1.1 200 OK") .nil,
          Xml.elem hrefTag (some "/principals/u/") .nil])]))
    [] "/principals/u" [(some "/principals/u/", [])] (by decide)).2.1
    [] (by decide) (by decide)

theorem childrenFilter_spec (selfUrl : MUrl) (type? : Option String) :
    ∀ (d : PropDict) (l : List (MUrl × Option String)),
    childrenFilter selfUrl type? d = .ok l →
    ((∀ u rt, (u, rt) ∈ l →
        u.stripTrailingSlash ≠ selfUrl.stripTrailingSlash)
     ∧ ∀ k inner rtype, (k, inner) ∈ d →
         dictGet inner resourcetypeTag = some rtype →
         typeMatches type? rtype = true →
         (selfUrl.joinStr k).stripTrailingSlash ≠ selfUrl.stripTrailingSlash →
         (selfUrl.joinStr k, rtype) ∈ l) := by
  intro d
  induction d with
  | nil =>
    intro l h
    simp only [childrenFilter] at h
    obtain rfl := (Except.ok.inj h).symm
    exact ⟨fun u rt h' => by simp at h', fun k inner rtype h' => by simp at h'⟩
  | cons p rest ih =>
    obtain ⟨k0, inner0⟩ := p
    intro l h
    simp only [childrenFilter] at h
    cases hg : dictGet inner0 resourcetypeTag with
    | none => rw [hg] at h; cases h
    | some rt0 =>
      rw [hg] at h
      cases hrec : childrenFilter selfUrl type? rest with
      | error e => rw [hrec] at h; cases h
      | ok l' =>
        rw [hrec] at h
        obtain ⟨h1, h2⟩ := ih l' hrec
        have hl := (Except.ok.inj h).symm
        by_cases hb : (typeMatches type? rt0 &&
            decide (selfUrl.stripTrailingSlash ≠
              (selfUrl.joinStr k0).stripTrailingSlash)) = true
        · rw [if_pos hb] at hl
          subst hl
          have hne : (selfUrl.joinStr k0).stripTrailingSlash ≠
              selfUrl.stripTrailingSlash :=
            fun he => (of_decide_eq_true (Bool.and_elim_right hb)) he.symm
          constructor
          · intro u rt hm
            rcases List.mem_cons.mp hm with hm | hm
            · obtain ⟨hu, _⟩ := Prod.mk.inj hm
              exact hu ▸ hne
            · exact h1 u rt hm
          · intro k inner rtype hm hgi htm hner
            rcases List.mem_cons.mp hm with hm | hm
            · obtain ⟨hk, hi⟩ := Prod.mk.inj hm
              subst hk; subst hi
              rw [hg] at hgi
              obtain rfl := Option.some.inj hgi
              exact List.mem_cons_self _ _
            · exact List.mem_cons_of_mem _ (h2 k inner rtype hm hgi htm hner)
        · rw [if_neg hb] at hl
          subst hl
          constructor
          · exact h1
          · intro k inner rtype hm hgi htm hner
            rcases List.mem_cons.mp hm with hm | hm
            · obtain ⟨hk, hi⟩ := Prod.mk.inj hm
              subst hk; subst hi
              rw [hg] at hgi
              obtain rfl := Option.some.inj hgi
              exact absurd (by
                simp only [Bool.and_eq_true, htm, true_and]
                exact decide_eq_true (fun he => hner he.symm)) hb
            · exact h2 k inner rtype hm hgi htm hner

/-- C5: whatever paths the depth-1 multistatus lists, `children` never
returns an entry whose trailing-slash-normalized URL equals the resource's
own normalized URL, and every listed path whose resource type matches the
requested type (or any type when none is requested) and whose normalized
URL differs from the resource's own is returned as a (URL, resourceType)
pair. -/
theorem children_excludes_self (selfUrl : MUrl) (type? : Option String)
    (tree : Xml) (l : List (MUrl × Option String))
    (h : children selfUrl type? tree = .ok l) :
    ((∀ u rt, (u, rt) ∈ l →
        u.stripTrailingSlash ≠ selfUrl.stripTrailingSlash)
     ∧ ∀ m, handle_prop_response tree [resourcetypeTag] type? .tag = .ok m →
         ∀ k inner rtype, (k, inner) ∈ m →
           dictGet inner resourcetypeTag = some rtype →
           typeMatches type? rtype = true →
           (selfUrl.joinStr k).stripTrailingSlash ≠ selfUrl.stripTrailingSlash →
           (selfUrl.joinStr k, rtype) ∈ l) := by
  unfold children at h
  cases hm : handle_prop_response tree [resourcetypeTag] type? .tag with
  | error e => rw [hm] at h; cases h
  | ok m0 =>
    rw [hm] at h
    obtain ⟨h1, h2⟩ := childrenFilter_spec selfUrl type? m0 l h
    refine ⟨h1, fun m hm' => ?_⟩
    obtain rfl := Except.ok.inj hm'
    exact h2

/-- Witness for C5 at a concrete depth-1 multistatus listing the collection
itself and one member. -/
theorem children_excludes_self_witness :
    (MUrl.mk (some "h") "/cal/a/").stripTrailingSlash ≠
      (MUrl.mk (some "h") "/cal/").stripTrailingSlash :=
  (children_excludes_self (MUrl.mk (some "h") "/cal/") none
    (Xml.elem "multistatus" none (xmlForestOf
      [Xml.elem responseTag none (xmlForestOf
         [Xml.elem statusTag (some "HTTP/1.1 200 OK") .nil,
          Xml.elem hrefTag (some "/cal/") .nil,
          Xml.elem resourcetypeTag none (xmlForestOf
            [Xml.elem "\x7bDAV:\x7dcollection" none .nil])]),
       Xml.elem responseTag none (xmlForestOf
         [Xml.elem statusTag (some "HTTP/1.1 200 OK") .nil,
          Xml.elem hrefTag (some "/cal/a/") .nil,
          Xml.elem resourcetypeTag none (xmlForestOf
            [Xml.elem calendarCompTag none .nil])])]))
    [(MUrl.mk (some "h") "/cal/a/", some calendarCompTag)]
    (by decide)).1 (MUrl.mk (some "h") "/cal/a/") (some calendarCompTag)
    (by decide)

/-- C6 counterexample: with session base URL `http://example.com/dav/` and a
returned calendar-home-set href `http://p01.example.com/u1/home/`, the code
replaces the whole session base URL (path included) with the href, so the
claim's "only the session's base host is repointed to that host (the rest of
the session base URL is otherwise preserved)" is false at this input. -/
theorem calendar_home_set_repoint_counterexample :
    (calendar_home_set (PrincipalState.mk none)
       (ClientState.mk (MUrl.mk (some "example.com") "/dav/"))
       "http://p01.example.com/u1/home/").client.url =
      MUrl.mk (some "p01.example.com") "/u1/home/"
    ∧ (calendar_home_set (PrincipalState.mk none)
       (ClientState.mk (MUrl.mk (some "example.com") "/dav/"))
       "http://p01.example.com/u1/home/").client.url ≠
      MUrl.mk (some "p01.example.com") "/dav/" := by decide

/-- C6 (amended): resolving the calendar-home-set when uncached issues one
property query; if the returned href carries a truthy hostname different
from the session's current hostname, the session's base URL is replaced
wholesale by the href (host and path alike), otherwise the session is
untouched; the CalendarSet is constructed from the (possibly re-based)
session url joined with the href; the result is cached, and later accesses
return it with no further query and no state change. -/
theorem calendar_home_set_resolution (p : PrincipalState) (cl : ClientState)
    (fetched : String) :
    (∀ cs, p.chs = some cs →
       calendar_home_set p cl fetched = CHSOut.mk p cl cs 0)
    ∧ (p.chs = none →
        (calendar_home_set p cl fetched).queries = 1
        ∧ (calendar_home_set p cl fetched).principal.chs =
            some (calendar_home_set p cl fetched).result
        ∧ ((hostTruthy (MUrl.ofString fetched).host &&
             decide ((MUrl.ofString fetched).host ≠ cl.url.host)) = true →
            (calendar_home_set p cl fetched).client.url = MUrl.ofString fetched)
        ∧ ((hostTruthy (MUrl.ofString fetched).host &&
             decide ((MUrl.ofString fetched).host ≠ cl.url.host)) = false →
            (calendar_home_set p cl fetched).client = cl)
        ∧ (calendar_home_set p cl fetched).result =
            CalendarSetM.mk ((calendar_home_set p cl fetched).client.url.join
              (MUrl.ofString fetched))
        ∧ ∀ f2, calendar_home_set (calendar_home_set p cl fetched).principal
             (calendar_home_set p cl fetched).client f2 =
             CHSOut.mk (calendar_home_set p cl fetched).principal
               (calendar_home_set p cl fetched).client
               (calendar_home_set p cl fetched).result 0) := by
  constructor
  · intro cs hcs
    simp [calendar_home_set, hcs]
  · intro hnone
    refine ⟨?_, ?_, ?_, ?_, ?_, ?_⟩
    · simp [calendar_home_set, hnone]
    · simp [calendar_home_set, hnone]
    · intro hbt
      rw [Bool.and_eq_true, decide_eq_true_eq] at hbt
      simp [calendar_home_set, hnone, chs_set, hbt.1, hbt.2]
    · intro hbf
      by_cases ht : hostTruthy (MUrl.ofString fetched).host = true
      · have hh : (MUrl.ofString fetched).host = cl.url.host := by
          rw [ht, Bool.true_and] at hbf
          simpa using hbf
        simp [calendar_home_set, hnone, chs_set, hh]
      · have ht' : hostTruthy (MUrl.ofString fetched).host = false := by
          simpa using ht
        simp [calendar_home_set, hnone, chs_set, ht']
    · simp [calendar_home_set, hnone, chs_set]
    · intro f2
      simp [calendar_home_set, hnone]

/-- Witness for C6 at a concrete uncached principal whose home-set href
lives on a different host. -/
theorem calendar_home_set_resolution_witness :
    (calendar_home_set (PrincipalState.mk none)
      (ClientState.mk (MUrl.mk (some "example.com") "/dav/"))
      "http://p01.example.com/u1/home/").queries = 1 :=
  ((calendar_home_set_resolution (PrincipalState.mk none)
    (ClientState.mk (MUrl.mk (some "example.com") "/dav/"))
    "http://p01.example.com/u1/home/").2 rfl).1

/-- C2 counterexample: for the explicit target path `/a.ics/b.ics` (which
ends in `.ics`) with no id given, `_create` derives the id with
`re.search('(/|^)([^/]*).ics', path).group(2)`, whose first (leftmost)
match yields `a` — not `b`, the stem of the final path segment that the
claim requires. -/
theorem cor_create_id_counterexample :
    deriveId (VInstance.mk none none none none "") none (some "/a.ics/b.ics") =
      .ok (some "a")
    ∧ finalSegmentIcsStem "/a.ics/b.ics" = some "b"
    ∧ (some "a" : Option String) ≠ some "b" := by decide

/-- C2 (amended): creating a calendar object resource derives the id — when
absent — from group 2 of the first match of the pattern `(/|^)([^/]*).ics`
in an explicit `.ics`-suffixed path (this is the final path segment's stem
whenever `.ics` occurs only as the path's final extension), else from the
UID of the first supported component present in the structured instance;
with no explicit path the target is id + ".ics" joined to the parent URL;
the data is PUT with content type text/calendar; a 302 response's location
header becomes the resource's URL; 201 and 204 succeed with the computed
path as the URL; any other status raises PutError. -/
theorem cor_create_spec (parentUrl : MUrl) (inst : VInstance) (dat : String)
    (id? : Option String) (path? : Option String) (resp : DavResponse) :
    (∀ p, id? = none → path? = some p → strEndsWith p ".ics" = true →
       deriveId inst id? path? = (reSearchG2 p.toList true).elim
         (Except.error PyErr.crash) (fun g => .ok (some g.asString)))
    ∧ (∀ i, id? = some i → deriveId inst id? path? = .ok (some i))
    ∧ (id? = none →
        (path? = none ∨ ∃ p, path? = some p ∧ strEndsWith p ".ics" = false) →
        deriveId inst id? path? = uidFromInstance inst)
    ∧ (∀ i, deriveId inst id? path? = .ok (some i) → path? = none →
        (cor_create parentUrl inst dat id? path? resp).2 =
          [Req.mk .put (parentUrl.join (MUrl.ofString (i ++ ".ics")))
             (some dat) (some "text/calendar; charset=\"utf-8\"")])
    ∧ (∀ j pstr, deriveId inst id? path? = .ok j →
        derivePath j path? = .ok pstr →
        ((resp.status = 302 → ∀ loc, locationOf resp.headers = some loc →
            (cor_create parentUrl inst dat id? path? resp).1 =
              .ok (MUrl.ofString loc, j))
         ∧ (resp.status ≠ 302 → (resp.status = 204 ∨ resp.status = 201) →
            (cor_create parentUrl inst dat id? path? resp).1 =
              .ok (parentUrl.join (MUrl.ofString pstr), j))
         ∧ (resp.status ≠ 302 → ¬(resp.status = 204 ∨ resp.status = 201) →
            (cor_create parentUrl inst dat id? path? resp).1 =
              .error .putError))) := by
  refine ⟨?_, ?_, ?_, ?_, ?_⟩
  · intro p h0 hp hics
    subst h0; subst hp
    simp only [deriveId, hics, if_true]
    cases reSearchG2 p.toList true <;> simp
  · intro i hi
    subst hi
    simp [deriveId]
  · intro h0 hp
    subst h0
    rcases hp with rfl | ⟨p, rfl, hne⟩
    · simp [deriveId]
    · simp [deriveId, hne]
  · intro i hdi hp
    subst hp
    simp only [cor_create, hdi, derivePath]
    by_cases h302 : resp.status = 302
    · cases locationOf resp.headers <;> simp [h302]
    · by_cases hok : resp.status = 204 ∨ resp.status = 201 <;>
        simp [h302, hok]
  · intro j pstr hdi hdp
    refine ⟨?_, ?_, ?_⟩
    · intro h302 loc hloc
      simp [cor_create, hdi, hdp, h302, hloc]
    · intro hn302 hok
      simp [cor_create, hdi, hdp, hn302, hok]
    · intro hn302 hbad
      rw [not_or] at hbad
      simp [cor_create, hdi, hdp, hn302, hbad.1, hbad.2]

/-- Witness for C2 (amended) at a concrete unbound event with UID
`abc123` and a 201 response: the PUT goes to `abc123.ics` under the parent
with the calendar content type. -/
theorem cor_create_spec_witness :
    (cor_create (MUrl.mk (some "h") "/cal/")
      (VInstance.mk (some (some "abc123")) none none none "B") "DATA" none
      none (DavResponse.mk 201 [] (Xml.elem "r" none .nil))).2 =
      [Req.mk .put (MUrl.mk (some "h") "/cal/abc123.ics") (some "DATA")
         (some "text/calendar; charset=\"utf-8\"")] := by
  have h := (cor_create_spec (MUrl.mk (some "h") "/cal/")
    (VInstance.mk (some (some "abc123")) none none none "B") "DATA" none
    none (DavResponse.mk 201 [] (Xml.elem "r" none .nil))).2.2.2.1
    "abc123" (by decide) rfl
  rw [h]
  decide

/-- C3: setting the textual data eagerly parses it into the structured
instance (failing fast on malformed input) and setting the structured
instance immediately re-serializes it into the textual data, so that after
either setter the two representations are mutually derivable, and — by the
round-trip law of the external codec — re-serialization yields equivalent
textual content for well-formed input. -/
theorem representation_sync (c : ICalCodec)
    (hlaw : ∀ s i, c.readOne s = some i → c.equivText (c.serialize i) s) :
    (∀ st d st', set_data c st d = (st', none) →
       st'.dat = some (c.fix d) ∧ st'.inst = c.readOne (c.fix d) ∧
       ∃ i, c.readOne (c.fix d) = some i ∧
         c.equivText (c.serialize i) (c.fix d))
    ∧ (∀ st d, c.readOne (c.fix d) = none →
        (set_data c st d).2 = some .parseError)
    ∧ (∀ st i, (set_instance c st i).dat = some (c.serialize i) ∧
        (set_instance c st i).inst = some i)
    ∧ (∀ st i, c.readOne (c.serialize i) = some i →
        ∃ d', (set_instance c st i).dat = some d' ∧
          c.readOne d' = some i ∧ c.equivText (c.serialize i) d') := by
  refine ⟨?_, ?_, ?_, ?_⟩
  · intro st d st' h
    cases hr : c.readOne (c.fix d) with
    | none => simp [set_data, hr] at h
    | some i =>
      simp only [set_data, hr] at h
      obtain ⟨h1, _⟩ := Prod.mk.inj h
      subst h1
      exact ⟨rfl, rfl, i, rfl, hlaw _ _ hr⟩
  · intro st d hr
    simp [set_data, hr]
  · intro st i
    exact ⟨rfl, rfl⟩
  · intro st i hr
    exact ⟨c.serialize i, rfl, hr, hlaw _ _ hr⟩

/-- Witness for C3 with the concrete identity codec. -/
theorem representation_sync_witness :
    (set_instance idCodec (CORState.mk none none none none)
       (VInstance.mk none none none none "X")).dat = some "X" := by
  have h := (representation_sync idCodec (fun s i h => by
    injection h with h'
    rw [← h']
    rfl)).2.2.1 (CORState.mk none none none none)
    (VInstance.mk none none none none "X")
  simpa [idCodec] using h.1

/-- C10: saving a calendar object resource on which neither the textual
data nor the structured instance was ever set issues no HTTP request at
all and returns the resource unchanged, url and id included. -/
theorem cor_save_noop (c : ICalCodec) (parentUrl : MUrl) (st : CORState)
    (resp : DavResponse) (h1 : st.inst = none) (h2 : st.dat = none) :
    cor_save c parentUrl st resp = (.ok st, []) := by
  simp [cor_save, h1]

/-- Witness for C10 at a freshly constructed resource. -/
theorem cor_save_noop_witness :
    cor_save idCodec (MUrl.mk (some "h") "/cal/")
      (CORState.mk none none none none)
      (DavResponse.mk 201 [] (Xml.elem "r" none .nil)) =
      (.ok (CORState.mk none none none none), []) :=
  cor_save_noop idCodec (MUrl.mk (some "h") "/cal/")
    (CORState.mk none none none none)
    (DavResponse.mk 201 [] (Xml.elem "r" none .nil)) rfl rfl

theorem strEndsWith_append_slash (p : String) :
    strEndsWith (p ++ "/") "/" = true := by
  have ht : (p ++ "/").toList = p.toList ++ ['/'] := by
    simp [String.toList]
  simp [strEndsWith, ht]

theorem ensureTrailingSlash_ends (u : MUrl) :
    strEndsWith (ensureTrailingSlash u).path "/" = true := by
  unfold ensureTrailingSlash
  by_cases h : strEndsWith u.path "/" = true
  · simp [h]
  · simp [h, strEndsWith_append_slash]

/-- C8: for every unbound Calendar whose `save()` completes successfully —
whichever of the id-based path and the Zimbra name-based fallback URL the
creation ends up with — the resulting calendar's URL ends in a path
separator. -/
theorem cal_save_url_slash (parentUrl : MUrl) (st : CalState)
    (genId : String) (env : CalCreateEnv) (st' : CalState) (tr : List Req)
    (h0 : st.url = none)
    (h : cal_save parentUrl st genId env = (.ok st', tr)) :
    ∃ u, st'.url = some u ∧ strEndsWith u.path "/" = true := by
  unfold cal_save at h
  rw [h0] at h
  cases hc : cal_create parentUrl st.name (st.id.getD genId) env with
  | mk res tr2 =>
    rw [hc] at h
    cases res with
    | ok u =>
      obtain ⟨h1, _⟩ := Prod.mk.inj h
      obtain rfl := Except.ok.inj h1
      exact ⟨ensureTrailingSlash u, rfl, ensureTrailingSlash_ends u⟩
    | error e => simp at h

/-- Witness for C8 at a concrete creation that succeeds (MKCALENDAR 201,
display-name PROPPATCH all-200, sane-server 404 probe). -/
theorem cal_save_url_slash_witness :
    ∃ u, (CalState.mk (some (MUrl.mk (some "h") "/u/cid/"))
        (some "Cal Name") (some "cid")).url = some u ∧
      strEndsWith u.path "/" = true :=
  cal_save_url_slash (MUrl.mk (some "h") "/u/")
    (CalState.mk none (some "Cal Name") (some "cid")) "gen"
    (CalCreateEnv.mk
      (DavResponse.mk 201 [] (Xml.elem "r" none .nil))
      (DavResponse.mk 207 [] (Xml.elem "ms" none (xmlForestOf
         [Xml.elem statusTag (some "HTTP/1.1 200 OK") .nil])))
      (DavResponse.mk 204 [] (Xml.elem "r" none .nil))
      (DavResponse.mk 404 [] (Xml.elem "r" none .nil)))
    (CalState.mk (some (MUrl.mk (some "h") "/u/cid/")) (some "Cal Name")
      (some "cid"))
    [Req.mk .mkcalendar (MUrl.mk (some "h") "/u/cid") none none,
     Req.mk .proppatch (MUrl.mk (some "h") "/u/cid") none none,
     Req.mk .get (MUrl.mk (some "h") "/u/Cal Name") none none]
    rfl (by decide)

/-- C7 counterexample: a display-name PROPPATCH failure whose rollback
DELETE answers 500 ends in `DeleteError`, not in the original
`PropsetError` the claim says is re-raised to the caller. -/
theorem cal_create_rollback_counterexample :
    set_properties_outcome (DavResponse.mk 207 [] (Xml.elem "ms" none
        (xmlForestOf [Xml.elem statusTag (some "HTTP/1.1 403 Forbidden") .nil])))
      = .error .propsetError
    ∧ (cal_create (MUrl.mk (some "h") "/u/") (some "Nm") "cid"
        (CalCreateEnv.mk
          (DavResponse.mk 201 [] (Xml.elem "r" none .nil))
          (DavResponse.mk 207 [] (Xml.elem "ms" none (xmlForestOf
             [Xml.elem statusTag (some "HTTP/1.1 403 Forbidden") .nil])))
          (DavResponse.mk 500 [] (Xml.elem "r" none .nil))
          (DavResponse.mk 404 [] (Xml.elem "r" none .nil)))).1
      = .error .deleteError
    ∧ PyErr.deleteError ≠ PyErr.propsetError := by decide

/-- C7 (amended): when a display name was given and the follow-up PROPPATCH
fails with PropsetError, a DELETE is issued against the just-created
collection URL; if that DELETE completes (status 200, 204 or 404) the
original PropsetError is re-raised to the caller, while a failing DELETE
raises DeleteError in its place. -/
theorem cal_create_rollback (parentUrl : MUrl) (nm : String) (id : String)
    (env : CalCreateEnv)
    (hmk : env.mkcal.status = 201)
    (hpp : set_properties_outcome env.proppatch = .error .propsetError) :
    (cal_create parentUrl (some nm) id env).2 =
      [Req.mk .mkcalendar (parentUrl.join (MUrl.ofString id)) none none,
       Req.mk .proppatch (parentUrl.join (MUrl.ofString id)) none none,
       Req.mk .delete (parentUrl.join (MUrl.ofString id)) none none]
    ∧ ((env.deleteResp.status = 200 ∨ env.deleteResp.status = 204 ∨
        env.deleteResp.status = 404) →
       (cal_create parentUrl (some nm) id env).1 = .error .propsetError)
    ∧ (¬(env.deleteResp.status = 200 ∨ env.deleteResp.status = 204 ∨
         env.deleteResp.status = 404) →
       (cal_create parentUrl (some nm) id env).1 = .error .deleteError) := by
  have hq : queryCheck env.mkcal .mkcalendar (some 201) = .ok env.mkcal := by
    simp [queryCheck, hmk]
  refine ⟨?_, ?_, ?_⟩
  · simp only [cal_create, hq, hpp]
    by_cases hd : env.deleteResp.status = 200 ∨ env.deleteResp.status = 204 ∨
        env.deleteResp.status = 404
    · rw [if_pos hd]; simp
    · rw [if_neg hd]; simp
  · intro hd
    simp only [cal_create, hq, hpp]
    rw [if_pos hd]
  · intro hd
    simp only [cal_create, hq, hpp]
    rw [if_neg hd]

/-- Witness for C7 (amended) at a concrete failing PROPPATCH whose rollback
DELETE answers 204. -/
theorem cal_create_rollback_witness :
    (cal_create (MUrl.mk (some "h") "/u/") (some "Nm") "cid"
      (CalCreateEnv.mk
        (DavResponse.mk 201 [] (Xml.elem "r" none .nil))
        (DavResponse.mk 207 [] (Xml.elem "ms" none (xmlForestOf
           [Xml.elem statusTag (some "HTTP/1.1 403 Forbidden") .nil])))
        (DavResponse.mk 204 [] (Xml.elem "r" none .nil))
        (DavResponse.mk 404 [] (Xml.elem "r" none .nil)))).1
    = .error .propsetError :=
  (cal_create_rollback (MUrl.mk (some "h") "/u/") "Nm" "cid"
    (CalCreateEnv.mk
      (DavResponse.mk 201 [] (Xml.elem "r" none .nil))
      (DavResponse.mk 207 [] (Xml.elem "ms" none (xmlForestOf
         [Xml.elem statusTag (some "HTTP/1.1 403 Forbidden") .nil])))
      (DavResponse.mk 204 [] (Xml.elem "r" none .nil))
      (DavResponse.mk 404 [] (Xml.elem "r" none .nil)))
    rfl (by decide)).2.1 (Or.inr (Or.inl rfl))

/-- C4: `event_by_uid` maps an HTTP 404 to NotFoundError and an HTTP 400 to
ReportError, raises NotFoundError on a successful report whose multistatus
has no `<response>` entry, and otherwise builds exactly one Event from the
first entry's href and calendar-data texts. -/
theorem event_by_uid_spec (c : ICalCodec) (clientUrl : MUrl)
    (resp : DavResponse) :
    (resp.status = 404 →
       event_by_uid c clientUrl resp = .error .notFoundError)
    ∧ (resp.status = 400 →
       event_by_uid c clientUrl resp = .error .reportError)
    ∧ (resp.status ≠ 404 → resp.status < 400 →
        resp.tree.findTag responseTag = none →
        event_by_uid c clientUrl resp = .error .notFoundError)
    ∧ (∀ rr h dEl href d i, resp.status ≠ 404 → resp.status < 400 →
        resp.tree.findTag responseTag = some rr →
        rr.findTag hrefTag = some h → h.textOf = some href → href ≠ "" →
        rr.findTag calendarDataTag = some dEl → dEl.textOf = some d →
        c.readOne (c.fix d) = some i →
        event_by_uid c clientUrl resp =
          .ok (CORState.mk (some (clientUrl.join (MUrl.ofString href))) none
            (some (c.fix d)) (some i))) := by
  refine ⟨?_, ?_, ?_, ?_⟩
  · intro h404
    simp [event_by_uid, queryCheck, h404]
  · intro h400
    simp [event_by_uid, queryCheck, h400, exceptionByMethod]
  · intro h1 h2 h3
    simp [event_by_uid, queryCheck, h1, Nat.not_le.mpr h2, Nat.ne_of_lt h2, h3]
  · intro rr h dEl href d i h1 h2 h3 h4 h5 h6 h7 h8 h9
    simp [event_by_uid, queryCheck, h1, Nat.not_le.mpr h2, Nat.ne_of_lt h2,
      h3, h4, h5, h6, h7, h8, h9, eventCtor, set_data]

/-- Witness for C4 at a concrete 207 report carrying one entry. -/
theorem event_by_uid_spec_witness :
    event_by_uid idCodec (MUrl.mk (some "h") "/")
      (DavResponse.mk 207 [] (Xml.elem "ms" none (xmlForestOf
        [Xml.elem responseTag none (xmlForestOf
          [Xml.elem hrefTag (some "/cal/abc123.ics") .nil,
           Xml.elem calendarDataTag (some "ICSDATA") .nil])]))) =
      .ok (CORState.mk (some (MUrl.mk (some "h") "/cal/abc123.ics")) none
        (some "ICSDATA")
        (some (VInstance.mk none none none none "ICSDATA"))) := by
  have h := (event_by_uid_spec idCodec (MUrl.mk (some "h") "/")
    (DavResponse.mk 207 [] (Xml.elem "ms" none (xmlForestOf
      [Xml.elem responseTag none (xmlForestOf
        [Xml.elem hrefTag (some "/cal/abc123.ics") .nil,
         Xml.elem calendarDataTag (some "ICSDATA") .nil])])))).2.2.2
    (Xml.elem responseTag none (xmlForestOf
      [Xml.elem hrefTag (some "/cal/abc123.ics") .nil,
       Xml.elem calendarDataTag (some "ICSDATA") .nil]))
    (Xml.elem hrefTag (some "/cal/abc123.ics") .nil)
    (Xml.elem calendarDataTag (some "ICSDATA") .nil)
    "/cal/abc123.ics" "ICSDATA" (VInstance.mk none none none none "ICSDATA")
    (by decide) (by decide) rfl rfl rfl (by decide) rfl rfl rfl
  rw [h]
  decide
